import Mathlib

/-!
# HostHunter — shallow embedding of the concurrent host-reachability prober

Embedding of the probing core of the HostHunter repository:
`src/utils.py` (host/uuid validation), `src/host_checker.py` (resolution,
HTTP check, ping check), `src/special_checks.py` (WebSocket tunnel check,
quota-bypass check) and `src/file_handler.py` (batch scan).

Network and subprocess behaviour is passed in explicitly: each external call
site (dig, curl, ping, requests.get, the WebSocket handshake) is modelled by
an inductive describing what the call did — returned output, raised
`CalledProcessError` / `TimeoutExpired` / a library exception, or raised an
unexpected exception.  Python exception flow is made explicit: try-bodies are
`Except PyExc` values and except-ladders are a `pyTry` combinator, so an
exception escaping a function's boundary shows up as an `Except.error` of the
translated function.  Latencies (Python floats, with `float("inf")` used as
the sort key of failed probes) are modelled as `WithTop ℚ`.
-/

set_option maxRecDepth 100000

namespace HostHunter

/-- Python exception values that the embedded code can raise or catch. -/
inductive PyExc where
  | calledProcessError (returncode : Int) (stderr : String)
  | timeoutExpired
  | indexError
  | requestException (msg : String)
  | webSocketException (msg : String)
  | other (msg : String)
deriving DecidableEq

/-- `str(e)` for the modelled exceptions (used when a handler embeds the
exception text in a message). -/
def excStr : PyExc → String
  | .calledProcessError rc stderr =>
      "Command returned non-zero exit status " ++ toString rc ++ ". " ++ stderr
  | .timeoutExpired => "Command timed out"
  | .indexError => "list index out of range"
  | .requestException m => m
  | .webSocketException m => m
  | .other m => m

/-- A `try:` body followed by an except-ladder.  The handler returns `some`
when one of the `except` clauses matches the raised exception; an unmatched
exception propagates. -/
def pyTry {α : Type} (body : Except PyExc α) (handler : PyExc → Option α) :
    Except PyExc α :=
  match body with
  | .ok a => .ok a
  | .error e =>
    match handler e with
    | some a => .ok a
    | none => .error e

/-- `true` when the `Except` computation did not raise. -/
def isOkE {α : Type} : Except PyExc α → Bool
  | .ok _ => true
  | .error _ => false

/-! ## Python string primitives -/

/-- ASCII whitespace stripped by Python `str.strip()`. -/
def pyIsSpace (c : Char) : Bool :=
  c = ' ' || c = '\t' || c = '\n' || c = '\r' || c = '\x0b' || c = '\x0c'

/-- Python `str.strip()`. -/
def pyStrip (s : String) : String :=
  String.mk (((s.data.dropWhile pyIsSpace).reverse.dropWhile pyIsSpace).reverse)

/-- `leadsWith pat l` : `pat` is a leading run of `l`. -/
def leadsWith : List Char → List Char → Bool
  | [], _ => true
  | _ :: _, [] => false
  | p :: ps, c :: cs => p = c && leadsWith ps cs

/-- `hasSub pat l` : `pat` occurs contiguously somewhere in `l`. -/
def hasSub (pat : List Char) : List Char → Bool
  | [] => leadsWith pat []
  | c :: cs => leadsWith pat (c :: cs) || hasSub pat cs

/-- Python `sub in s` for strings. -/
def pyContains (s sub : String) : Bool :=
  hasSub sub.data s.data

/-- Python `s.lower()` (ASCII letters). -/
def pyLower (s : String) : String :=
  String.mk (s.data.map Char.toLower)

/-- Python `s.upper()` (ASCII letters). -/
def pyUpper (s : String) : String :=
  String.mk (s.data.map Char.toUpper)

/-- Python `str(b)` for a bool: `"True"` / `"False"`. -/
def pyBoolStr (b : Bool) : String :=
  if b then "True" else "False"

/-- Python `s.startswith(p)`. -/
def pyStartsWith (s p : String) : Bool :=
  leadsWith p.data s.data

/-- Python `s.endswith(p)`. -/
def pyEndsWith (s p : String) : Bool :=
  leadsWith p.data.reverse s.data.reverse

/-- Python `s.split(sep)` for a one-character separator, on the character
list.  `charSplit c [] = [[]]`, matching `"".split(".") == [""]`. -/
def charSplit (sep : Char) : List Char → List (List Char)
  | [] => [[]]
  | c :: rest =>
    if c = sep then [] :: charSplit sep rest
    else
      match charSplit sep rest with
      | [] => [[c]]
      | g :: gs => (c :: g) :: gs

/-- Python `s.split(sep)` on strings. -/
def pySplit (sep : Char) (s : String) : List String :=
  (charSplit sep s.data).map String.mk

/-- Python `str.splitlines()`, restricted to `"\n"` separators (the only line
separator produced by the subprocess output this code consumes): splitting on
`"\n"` does not count a final newline as starting an extra empty line. -/
def pySplitlines (s : String) : List String :=
  let parts := pySplit '\n' s
  match parts.getLast? with
  | some "" => parts.dropLast
  | _ => parts

/-- Numeric value of a digit run (leading zeros allowed). -/
def natOfDigits (l : List Char) : Nat :=
  l.foldl (fun n c => n * 10 + (c.toNat - '0'.toNat)) 0

/-! ## utils.py — validate_host / validate_uuid -/

/-- One octet alternative of utils.py's
`ipv4_regex = (25[0-5]|2[0-4][0-9]|[01]?[0-9][0-9]?)`: a run of one to three
digits whose value is at most 255 (leading zeros allowed by the regex). -/
def ipv4Octet (s : String) : Bool :=
  s ≠ "" && s.data.all Char.isDigit && s.length ≤ 3 && natOfDigits s.data ≤ 255

/-- utils.py's ipv4_regex, anchored on the whole (already stripped) string. -/
def validHostIPv4 (s : String) : Bool :=
  match pySplit '.' s with
  | [a, b, c, d] => ipv4Octet a && ipv4Octet b && ipv4Octet c && ipv4Octet d
  | _ => false

/-- Character class `[A-Za-z0-9.-]` of the host charset check. -/
def hostChar (c : Char) : Bool :=
  c.isAlphanum || c = '.' || c = '-'

/-- The per-label regex `^[A-Za-z0-9](?:[A-Za-z0-9-]{0,61}[A-Za-z0-9])$`:
a leading alphanumeric, then zero to 61 alphanumeric-or-hyphen characters,
then a final alphanumeric.  Note the group is not optional: a label must
have at least two characters. -/
def labelOk (s : String) : Bool :=
  match s.data with
  | [] => false
  | c :: rest =>
    !rest.isEmpty && c.isAlphanum && rest.dropLast.length ≤ 61 &&
      rest.dropLast.all (fun d => d.isAlphanum || d = '-') &&
      (match rest.getLast? with
       | some lastc => lastc.isAlphanum
       | none => false)

/-- The TLD check `^[A-Za-z]{2,}$`. -/
def tldOk (s : String) : Bool :=
  2 ≤ s.length && s.data.all Char.isAlpha

/-- The body of utils.validate_host after `host = host.strip()`, translated
check for check. -/
def validate_host_stripped (host : String) : Bool :=
  if host = "" then false
  else if 253 < host.length then false
  else if pyContains host "//" || pyContains host "/" || pyContains host "@" ||
      pyContains host ":" || pyContains host "?" || pyContains host "#" then false
  else if validHostIPv4 host then true
  else if !(host.data.all hostChar) then false
  else if pyStartsWith host "-" || pyEndsWith host "-" ||
      pyStartsWith host "." || pyEndsWith host "." then false
  else if pyContains host ".." then false
  else if (pySplit '.' host).any (fun l => l.length = 0 || 63 < l.length) then false
  else if !((pySplit '.' host).all labelOk) then false
  else if !(tldOk (((pySplit '.' host).getLast?).getD "")) then false
  else true

/-- utils.validate_host. -/
def validate_host (host0 : String) : Bool :=
  validate_host_stripped (pyStrip host0)

/-- Lower-case hex digit `[0-9a-f]`. -/
def hexLower (c : Char) : Bool :=
  c.isDigit || ('a' ≤ c && c ≤ 'f')

/-- A run of exactly `n` lower-case hex digits. -/
def hexRun (s : String) (n : Nat) : Bool :=
  s.length = n && s.data.all hexLower

/-- utils.validate_uuid: `^[0-9a-f]{8}-[0-9a-f]{4}-[0-9a-f]{4}-[0-9a-f]{4}-[0-9a-f]{12}$`. -/
def validate_uuid (uuid : String) : Bool :=
  match pySplit '-' uuid with
  | [a, b, c, d, e] =>
      hexRun a 8 && hexRun b 4 && hexRun c 4 && hexRun d 4 && hexRun e 12
  | _ => false

/-! ### The amended host grammar (spec side), for comparison with
validate_host -/

/-- The scheme/port/path/authority characters rejected anywhere in a host. -/
def sepChar (c : Char) : Bool :=
  c = '/' || c = '@' || c = ':' || c = '?' || c = '#'

/-- Spec grammar: an IPv4 octet — one to three digits valued at most 255
(leading zeros allowed). -/
def specOctet (p : List Char) : Bool :=
  !p.isEmpty && p.all Char.isDigit && p.length ≤ 3 && natOfDigits p ≤ 255

/-- Spec grammar: an IPv4 dotted quad. -/
def specIPv4 (l : List Char) : Bool :=
  match charSplit '.' l with
  | [a, b, c, d] => specOctet a && specOctet b && specOctet c && specOctet d
  | _ => false

/-- Alphanumeric or hyphen. -/
def alnumHyphen (c : Char) : Bool := c.isAlphanum || c = '-'

/-- Spec grammar: a DNS label of 2–63 characters, alphanumeric/hyphen,
starting and ending with an alphanumeric. -/
def specLabel (g : List Char) : Bool :=
  2 ≤ g.length && g.length ≤ 63 &&
    (match g.head? with | some c => c.isAlphanum | none => false) &&
    (match g.getLast? with | some c => c.isAlphanum | none => false) &&
    g.all alnumHyphen

/-- Spec grammar: the final label must be alphabetic, length at least 2. -/
def specTLD (g : List Char) : Bool := 2 ≤ g.length && g.all Char.isAlpha

/-- Spec grammar: a DNS name — every dot-separated label well-formed and the
final label an alphabetic TLD. -/
def specDNS (l : List Char) : Bool :=
  (charSplit '.' l).all specLabel && specTLD (((charSplit '.' l).getLast?).getD [])

/-- The amended host grammar: after stripping, non-empty, at most 253
characters, no separator characters anywhere, and either an IPv4 dotted quad
or a DNS name. -/
def hostSpec_core (l : List Char) : Bool :=
  !l.isEmpty && l.length ≤ 253 && !(l.any sepChar) && (specIPv4 l || specDNS l)

/-- The amended host grammar on the raw input. -/
def hostSpec (s0 : String) : Bool :=
  hostSpec_core (pyStrip s0).data

/-- Concatenate groups with the separator between (inverse of charSplit). -/
def joinGroups (c : Char) : List (List Char) → List Char
  | [] => []
  | g :: gs =>
    match gs with
    | [] => g
    | g2 :: gs2 => g ++ c :: joinGroups c (g2 :: gs2)

/-! ## host_checker.py — get_host_ips -/

/-- Behaviour of the `subprocess.run(["dig", "+short", host], ..., check=True)`
call: captured stdout on exit code 0, or the raised exception. -/
inductive DigBeh where
  | ok (stdout : String)
  | cpe (stderr : String)
  | timeout
  | exc (msg : String)
deriving DecidableEq

/-- The dig-output line filter `^\d+\.\d+\.\d+\.\d+$` of get_host_ips. -/
def isDottedQuad (s : String) : Bool :=
  match pySplit '.' s with
  | [a, b, c, d] =>
      [a, b, c, d].all (fun p => p ≠ "" && p.data.all Char.isDigit)
  | _ => false

/-- host_checker.get_host_ips on the dig call's behaviour.  Every exception is
caught (`CalledProcessError`, `TimeoutExpired` and a bare `except Exception`),
each handler returning `["N/A"]`. -/
def get_host_ips (beh : DigBeh) : List String :=
  match beh with
  | .ok stdout =>
    let ips := ((pySplitlines stdout).map pyStrip).filter isDottedQuad
    if ips.isEmpty then ["N/A"] else ips
  | .cpe _ => ["N/A"]
  | .timeout => ["N/A"]
  | .exc _ => ["N/A"]

/-! ## host_checker.py — check_host -/

/-- Latency values: measured response times in milliseconds, with `⊤` for
`float("inf")`, the sort key the code assigns to failed probes. -/
abbrev Latency := WithTop ℚ

/-- Behaviour of one `curl -I ... --resolve host:port:ip` subprocess call:
on exit code 0, the measured wall-clock duration (ms) and captured stdout. -/
inductive CurlBeh where
  | ok (t : ℚ) (stdout : String)
  | cpe (stderr : String)
  | timeout
  | exc (msg : String)
deriving DecidableEq

/-- Python `f"{t:.2f}"` on a nonnegative time, modelled over `ℚ`: round to
two decimals (half up), zero-padded fraction.  `⌊t*100 + 1/2⌋` is computed on
the numerator/denominator as `(200*num + den).fdiv (2*den)`. -/
def fmt2 (t : ℚ) : String :=
  let n : Nat := ((200 * t.num + (t.den : Int)).fdiv (2 * (t.den : Int))).toNat
  toString (n / 100) ++ "." ++ (if n % 100 < 10 then "0" else "") ++ toString (n % 100)

/-- The body of check_host's per-address `try` block on a successful curl run:
take the first stdout line (raising `IndexError` when stdout is empty) and
classify by substring: `"200"` → 200 OK entry, `"301"`/`"302"` → redirect
entry, otherwise a failed entry keyed `float("inf")`. -/
def curlTryBody (host ip : String) (port : Nat) (t : ℚ) (stdout : String) :
    Except PyExc (Latency × String) :=
  match pySplitlines stdout with
  | [] => .error .indexError
  | firstLine :: _ =>
    if pyContains firstLine "200" then
      .ok ((t : ℚ), "[200 OK] " ++ host ++ " (IP: " ++ ip ++ ", Port: " ++
        toString port ++ ", Response: " ++ fmt2 t ++ " ms) is active!")
    else if pyContains firstLine "301" || pyContains firstLine "302" then
      .ok ((t : ℚ), "[Redirect] " ++ host ++ " (IP: " ++ ip ++ ", Port: " ++
        toString port ++ ", Response: " ++ fmt2 t ++ " ms) may be usable.")
    else
      .ok (⊤, "[Failed] " ++ host ++ " (IP: " ++ ip ++ ", Port: " ++
        toString port ++ ") returned " ++ firstLine)

/-- One loop iteration of check_host for one resolved address: the `try` block
plus its except-ladder (`CalledProcessError`, `TimeoutExpired`, `Exception`). -/
def curlProbe (host ip : String) (port : Nat) (beh : CurlBeh) :
    Except PyExc (Latency × String) :=
  pyTry
    (match beh with
      | .ok t stdout => curlTryBody host ip port t stdout
      | .cpe stderr => .error (.calledProcessError 1 stderr)
      | .timeout => .error .timeoutExpired
      | .exc m => .error (.other m))
    (fun e => match e with
      | .calledProcessError _ stderr =>
          some (⊤, "[Failed] " ++ host ++ " (IP: " ++ ip ++ ", Port: " ++
            toString port ++ ") curl error: " ++ pyStrip stderr)
      | .timeoutExpired =>
          some (⊤, "[Timeout] " ++ host ++ " (IP: " ++ ip ++ ", Port: " ++
            toString port ++ ") took too long to respond.")
      | e =>
          some (⊤, "[Error] " ++ host ++ " (IP: " ++ ip ++ ", Port: " ++
            toString port ++ ") failed: " ++ excStr e))

/-- Result of check_host's `for ip in ips` loop: either the early `return` hit
on the unresolved sentinel (with the number of curl probes already attempted),
or the collected `(time, message)` entries with the probe count. -/
inductive LoopOut where
  | early (r : String × String) (probes : Nat)
  | done (entries : List (Latency × String)) (probes : Nat)
deriving DecidableEq

/-- check_host's address loop (`for ip in ips: ...`).  An exception escaping
an iteration (none can, as the ladder ends in `except Exception`) would
propagate. -/
def checkHostLoop (host : String) (port : Nat) (curl : String → CurlBeh) :
    List String → Except PyExc LoopOut
  | [] => .ok (.done [] 0)
  | ip :: rest =>
    if ip = "N/A" then
      .ok (.early ("red", "[Error] " ++ host ++ " (IP: N/A) failed to resolve.") 0)
    else
      match curlProbe host ip port (curl ip) with
      | .error e => .error e
      | .ok entry =>
        match checkHostLoop host port curl rest with
        | .error e => .error e
        | .ok (.early r n) => .ok (.early r (n + 1))
        | .ok (.done es n) => .ok (.done (entry :: es) (n + 1))

/-- Ranking key of `results.sort(key=lambda x: x[0])`. -/
def timeLe (a b : Latency × String) : Prop := a.1 ≤ b.1

instance : DecidableRel timeLe := fun a b => inferInstanceAs (Decidable (a.1 ≤ b.1))

instance : IsTotal (Latency × String) timeLe := ⟨fun a b => le_total a.1 b.1⟩

instance : IsTrans (Latency × String) timeLe := ⟨fun _ _ _ => le_trans⟩

/-- The code's `results` list after `results.sort(key=lambda x: x[0])`:
CPython's sort is stable, modelled by (stable) insertion sort on the key. -/
def check_host_ranked (host : String) (ips : List String) (port : Nat)
    (curl : String → CurlBeh) : List (Latency × String) :=
  match checkHostLoop host port curl ips with
  | .ok (.done entries _) => List.insertionSort timeLe entries
  | _ => []

/-- The number of curl probes check_host attempts. -/
def check_host_probes (host : String) (ips : List String) (port : Nat)
    (curl : String → CurlBeh) : Nat :=
  match checkHostLoop host port curl ips with
  | .ok (.early _ n) => n
  | .ok (.done _ n) => n
  | .error _ => 0

/-- host_checker.check_host over the resolved addresses: loop, stable sort by
response time, overall colour from the best entry's message, messages joined
with newlines; the `results` empty / unresolved-sentinel early returns kept. -/
def check_host_ips (host : String) (ips : List String) (port : Nat)
    (curl : String → CurlBeh) : Except PyExc (String × String) :=
  match checkHostLoop host port curl ips with
  | .error e => .error e
  | .ok (.early r _) => .ok r
  | .ok (.done entries _) =>
    match List.insertionSort timeLe entries with
    | [] =>
        .ok ("red", "[Error] " ++ host ++ " (IP: N/A, Port: " ++ toString port ++
          ") no valid responses.")
    | best :: others =>
      let color :=
        if pyContains best.2 "200 OK" then "green"
        else if pyContains best.2 "Redirect" then "yellow"
        else "red"
      .ok (color, String.intercalate "\n" ((best :: others).map Prod.snd))

/-- check_host as called on a hostname: addresses come from get_host_ips. -/
def check_host (host : String) (port : Nat) (dig : DigBeh)
    (curl : String → CurlBeh) : Except PyExc (String × String) :=
  check_host_ips host (get_host_ips dig) port curl

/-- The fallback message text: the second component of check_host's result
(defined for the provable case where check_host does not raise). -/
def check_host_msg (host : String) (ips : List String) (port : Nat)
    (curl : String → CurlBeh) : String :=
  match check_host_ips host ips port curl with
  | .ok r => r.2
  | .error _ => ""

/-! ## host_checker.py — check_ping -/

/-- Behaviour of the `subprocess.run(["ping", "-c", "4", ip], ..., check=True)`
call for one address. -/
inductive PingBeh where
  | ok (stdout : String)
  | cpe (returncode : Int) (stderr : String)
  | timeout
  | exc (msg : String)
deriving DecidableEq

/-- Characters matched by `[\d.]`. -/
def ddChar (c : Char) : Bool := c.isDigit || c = '.'

/-- `pat` as a leading run of `s`: the rest of `s`, or `none`. -/
def stripLead : List Char → List Char → Option (List Char)
  | [], t => some t
  | _ :: _, [] => none
  | p :: ps, c :: cs => if p = c then stripLead ps cs else none

/-- Match of `rtt min/avg/max/mdev = [\d.]+/([\d.]+)/` anchored at the start
of `s`: the captured group.  (As `/` is outside `[\d.]`, the greedy runs
cannot backtrack: only the maximal digit-dot runs can be followed by `/`.) -/
def rttMatchAt (s : List Char) : Option (List Char) :=
  match stripLead ("rtt min/avg/max/mdev = ".data) s with
  | none => none
  | some t =>
    let r1 := t.takeWhile ddChar
    if r1.isEmpty then none
    else
      match t.dropWhile ddChar with
      | '/' :: t2 =>
        let r2 := t2.takeWhile ddChar
        if r2.isEmpty then none
        else
          match t2.dropWhile ddChar with
          | '/' :: _ => some r2
          | _ => none
      | _ => none

/-- `re.search` for the rtt pattern: leftmost match. -/
def rttSearch : List Char → Option (List Char)
  | [] => none
  | c :: rest => rttMatchAt (c :: rest) <|> rttSearch rest

/-- host_checker.check_ping over the resolved addresses, the ping behaviour
per address, and the curl behaviour used by the HTTPS fallback; paired with
the number of check_host fallback invocations.  Pings `ips[0]` only (an empty
address list would raise `IndexError`, outside any `try`). -/
def check_ping_core (host : String) (ips : List String)
    (ping : String → PingBeh) (curl : String → CurlBeh) :
    Except PyExc ((String × String) × Nat) :=
  match ips with
  | [] => .error .indexError
  | ip :: _ =>
    if ip = "N/A" then
      .ok (("red", "[Error] " ++ host ++ " (IP: N/A) failed to resolve."), 0)
    else
      match ping ip with
      | .ok stdout =>
        let latency :=
          match rttSearch stdout.data with
          | some g => String.mk g
          | none => "N/A"
        .ok (("spring_green2",
          "[Ping OK] " ++ host ++ " (IP: " ++ ip ++ ") latency: " ++ latency ++ " ms"), 0)
      | .cpe _ stderr =>
        match check_host_ips host ips 443 curl with
        | .error e => .error e
        | .ok r =>
          .ok (("yellow",
            "[Ping Unreachable] " ++ host ++ " (IP: " ++ ip ++ ") may block ICMP. Stderr: " ++
              pyStrip stderr ++ "\nHTTPS Test:\n" ++ r.2), 1)
      | .timeout =>
        match check_host_ips host ips 443 curl with
        | .error e => .error e
        | .ok r =>
          .ok (("orange3",
            "[Timeout] " ++ host ++ " (IP: " ++ ip ++
              ") took too long to respond.\nHTTPS Test:\n" ++ r.2), 1)
      | .exc m =>
        .ok (("red", "[Error] " ++ host ++ " (IP: " ++ ip ++ ") failed: " ++ m), 0)

/-- check_ping as called on a hostname: addresses come from get_host_ips. -/
def check_ping (host : String) (dig : DigBeh) (ping : String → PingBeh)
    (curl : String → CurlBeh) : Except PyExc ((String × String) × Nat) :=
  check_ping_core host (get_host_ips dig) ping curl

/-! ## special_checks.py — check_vmess_trojan -/

/-- Behaviour of the WebSocket connect/send/recv sequence: the received reply
(with whether `json.loads` accepts it), or the raised exception. -/
inductive WsBeh where
  | recv (response : String) (isJson : Bool)
  | wsExc (msg : String)
  | exc (msg : String)
deriving DecidableEq

/-- special_checks.check_vmess_trojan: credential validation fails fast before
any connection; then the WebSocket round-trip, classified per protocol, with
`WebSocketException` and bare `Exception` handlers both returning a red
result. -/
def check_vmess_trojan (host : String) (port : Nat) (path protocol uuidOrPassword : String)
    (useTls : Bool) (ws : WsBeh) : Except PyExc (String × String) :=
  if protocol = "vmess" && !(validate_uuid uuidOrPassword) then
    .ok ("red", "[Error] Invalid UUID format for " ++ host ++ ".")
  else if protocol = "trojan" && uuidOrPassword.length < 8 then
    .ok ("red", "[Error] Trojan password must be at least 8 characters for " ++ host ++ ".")
  else
    pyTry
      (match ws with
        | .recv response isJson =>
          if protocol = "vmess" then
            if isJson then
              .ok ("green", "[VMESS OK] " ++ host ++ " (Port: " ++ toString port ++
                ", Path: " ++ path ++ ", TLS: " ++ pyBoolStr useTls ++
                ") is reachable with valid JSON response.")
            else
              .ok ("yellow", "[VMESS Warning] " ++ host ++ " (Port: " ++ toString port ++
                ", Path: " ++ path ++ ", TLS: " ++ pyBoolStr useTls ++
                ") connected but received non-JSON response.")
          else
            if response ≠ "" then
              .ok ("green", "[TROJAN OK] " ++ host ++ " (Port: " ++ toString port ++
                ", Path: " ++ path ++ ", TLS: " ++ pyBoolStr useTls ++ ") is reachable.")
            else
              .ok ("yellow", "[TROJAN Warning] " ++ host ++ " (Port: " ++ toString port ++
                ", Path: " ++ path ++ ", TLS: " ++ pyBoolStr useTls ++
                ") connected but received empty response.")
        | .wsExc m => .error (.webSocketException m)
        | .exc m => .error (.other m))
      (fun e => match e with
        | .webSocketException m =>
          some ("red", "[" ++ pyUpper protocol ++ " Error] " ++ host ++ " (Port: " ++
            toString port ++ ", Path: " ++ path ++ ", TLS: " ++ pyBoolStr useTls ++
            ") failed: " ++ m)
        | e =>
          some ("red", "[" ++ pyUpper protocol ++ " Error] " ++ host ++ " (Port: " ++
            toString port ++ ", Path: " ++ path ++ ", TLS: " ++ pyBoolStr useTls ++
            ") failed: " ++ excStr e))

/-! ## special_checks.py — check_quota_bug -/

/-- Behaviour of the `requests.get` call: a response (status code, body text,
header names) or a raised exception. -/
inductive RequestsBeh where
  | response (statusCode : Int) (text : String) (headerKeys : List String)
  | raise (e : PyExc)
deriving DecidableEq

/-- `'X-Ruangguru' in response.headers`: requests' header mapping is
case-insensitive. -/
def headersContain (keys : List String) (k : String) : Bool :=
  keys.any (fun h => pyLower h = pyLower k)

/-- special_checks.check_quota_bug.  Only `requests.RequestException` is
caught; any other exception propagates past the function's boundary. -/
def check_quota_bug (host : String) (port : Nat) (req : RequestsBeh) :
    Except PyExc (String × String) :=
  pyTry
    (match req with
      | .response status text headers =>
        if status = 200 && pyContains (pyLower text) "ruangguru" &&
            headersContain headers "X-Ruangguru" then
          .ok ("green", "[Quota Bug OK] " ++ host ++ " (Port: " ++ toString port ++
            ") allows access with edukasi header, contains expected content, and valid header!")
        else if status = 200 then
          .ok ("yellow", "[Quota Bug Partial] " ++ host ++ " (Port: " ++ toString port ++
            ") returned 200 but missing expected content or header.")
        else
          .ok ("yellow", "[Quota Bug Failed] " ++ host ++ " (Port: " ++ toString port ++
            ") returned " ++ toString status ++ ".")
      | .raise e => .error e)
    (fun e => match e with
      | .requestException m =>
        some ("red", "[Quota Bug Error] " ++ host ++ " (Port: " ++ toString port ++
          ") failed: " ++ m)
      | _ => none)

/-! ## file_handler.py — scan_hosts_from_file -/

/-- Match of `Response: ([\d.]+) ms` anchored at the start of `s`: the
captured group.  (A space is outside `[\d.]`, so only the maximal digit-dot
run can be followed by `" ms"` — no backtracking.) -/
def respMatchAt (s : List Char) : Option (List Char) :=
  match stripLead ("Response: ".data) s with
  | none => none
  | some t =>
    let g := t.takeWhile ddChar
    if g.isEmpty then none
    else if leadsWith (" ms".data) (t.dropWhile ddChar) then some g
    else none

/-- `re.search` for the response-time pattern: leftmost match. -/
def respSearch : List Char → Option (List Char)
  | [] => none
  | c :: rest => respMatchAt (c :: rest) <|> respSearch rest

/-- Python `float()` on a `[\d.]+` group: accepts at most one dot and at least
one digit (`"1."`, `".5"` fine; `"."`, `"1.2.3"` raise ValueError). -/
def pyFloatDD (g : List Char) : Option ℚ :=
  if (g.filter (fun c => c = '.')).length ≤ 1 && g.any Char.isDigit then
    let ip := g.takeWhile (fun c => c ≠ '.')
    let fr := (g.dropWhile (fun c => c ≠ '.')).drop 1
    some (mkRat (natOfDigits ip * 10 ^ fr.length + natOfDigits fr) (10 ^ fr.length))
  else none

/-- file_handler's sort key `extract_response_time`: the first
`Response: X ms` match parsed as a float, `float("inf")` when there is none;
`none` models the ValueError a malformed group would raise. -/
def extract_response_time (message : String) : Option Latency :=
  match respSearch message.data with
  | none => some (⊤ : Latency)
  | some g => (pyFloatDD g).map (fun q => (q : Latency))

/-- The key actually ordering scan results (total version used in theorem
statements): extracted response time, `⊤` for messages without one. -/
def extractKey (r : String × String) : Latency :=
  (extract_response_time r.2).getD ⊤

/-- The host list read from the file: each line stripped, blank lines and
lines failing validate_host dropped. -/
def lineHosts (lines : List String) : List String :=
  (lines.map pyStrip).filter (fun s => s ≠ "" && validate_host s)

/-- The collected results of the per-host futures: a raising check_host is
caught and converted to an error tuple (`future.result()` under
`except Exception`). -/
def scanResults (check : String → Except PyExc (String × String))
    (hosts : List String) : List (String × String) :=
  hosts.map (fun h =>
    match check h with
    | .ok r => r
    | .error e => ("red", "[Error] Host check failed: " ++ excStr e))

/-- Ranking relation for the batch sort (on key/result pairs; CPython computes
all keys first, then stable-sorts). -/
def keyLe (a b : Latency × (String × String)) : Prop := a.1 ≤ b.1

instance : DecidableRel keyLe := fun a b => inferInstanceAs (Decidable (a.1 ≤ b.1))

instance : IsTotal (Latency × (String × String)) keyLe := ⟨fun a b => le_total a.1 b.1⟩

instance : IsTrans (Latency × (String × String)) keyLe := ⟨fun _ _ _ => le_trans⟩

/-- CPython's `list.sort(key=f)` first computes the key of each element in
list order; the ValueError of a malformed float aborts this pass. -/
def decorate : List (String × String) → Option (List (Latency × (String × String)))
  | [] => some []
  | r :: rs =>
    match extract_response_time r.2 with
    | none => none
    | some k =>
      match decorate rs with
      | none => none
      | some ds => some ((k, r) :: ds)

/-- Behaviour of the filesystem for the scan: `os.path.exists(file_path)`
false; or the path exists but `open(file_path, "r")` raises (permission
denied, a directory path, an I/O error); or the file is read, giving its
lines. -/
inductive FileBeh where
  | missing
  | openExc (e : PyExc)
  | lines (contents : List String)
deriving DecidableEq

/-- file_handler.scan_hosts_from_file over the filesystem behaviour and the
per-host behaviour of check_host: a non-existent path → `[]`; an existing
path whose `open()` raises propagates the exception (there is no handler
around `open`); no valid host lines → `[]`; otherwise collect every future's
result and stable-sort by the extracted response time (a ValueError from the
key function would propagate). -/
def scan_hosts_from_file (file : FileBeh)
    (check : String → Except PyExc (String × String)) :
    Except PyExc (List (String × String)) :=
  match file with
  | .missing => .ok []
  | .openExc e => .error e
  | .lines lines =>
    let hosts := lineHosts lines
    if hosts.isEmpty then .ok []
    else
      match decorate (scanResults check hosts) with
      | none => .error (.other "could not convert string to float")
      | some keyed => .ok ((List.insertionSort keyLe keyed).map Prod.snd)

/-! ## functools.lru_cache(maxsize=128) on get_host_ips -/

/-- The memo cache state of the lru_cache wrapper around get_host_ips:
entries most-recent-first (capacity 128), plus the number of underlying dig
lookups performed so far in the process. -/
structure CacheState where
  entries : List (String × List String)
  lookups : Nat
deriving DecidableEq

/-- Cache lookup (first, i.e. most recent, binding wins). -/
def lruLookup (k : String) : List (String × List String) → Option (List String)
  | [] => none
  | (k2, v) :: rest => if k2 = k then some v else lruLookup k rest

/-- Remove the binding of `k` (used to move a hit entry to the front). -/
def lruRemove (k : String) : List (String × List String) → List (String × List String)
  | [] => []
  | (k2, v) :: rest => if k2 = k then rest else (k2, v) :: lruRemove k rest

/-- One call of the cached resolver: a hit returns the cached value and marks
the entry most-recent; a miss runs dig (counting the lookup), inserts the
entry most-recent and evicts the least-recent entry beyond capacity 128. -/
def cachedResolve (dig : String → DigBeh) (st : CacheState) (host : String) :
    List String × CacheState :=
  match lruLookup host st.entries with
  | some v => (v, ⟨(host, v) :: lruRemove host st.entries, st.lookups⟩)
  | none =>
    let v := get_host_ips (dig host)
    (v, ⟨((host, v) :: st.entries).take 128, st.lookups + 1⟩)

/-- A sequence of resolver calls within one process. -/
def runResolves (dig : String → DigBeh) (st : CacheState) : List String → CacheState
  | [] => st
  | h :: hs => runResolves dig (cachedResolve dig st h).2 hs

/-! ### Environments and fixtures used by the claim theorems -/

/-- The failure cases of the dig call as seen by get_host_ips: any raised
exception, or an output with no line matching the IPv4 pattern. -/
def digFailed : DigBeh → Bool
  | .ok stdout => (((pySplitlines stdout).map pyStrip).filter isDottedQuad).isEmpty
  | .cpe _ => true
  | .timeout => true
  | .exc _ => true

/-- 128 distinct one-character hostnames, none equal to "A". -/
def c7Fillers : List String :=
  (List.range 128).map (fun i => String.mk [Char.ofNat (97 + i)])

/-- A dig oracle whose output has no A records. -/
def c7Dig : String → DigBeh := fun _ => DigBeh.ok ""

/-- Whether an exception is (a subclass of) `requests.RequestException`. -/
def isReqExc : PyExc → Bool
  | .requestException _ => true
  | _ => false

/-- The network-layer behaviours that check_quota_bug absorbs into a result:
any response, and a raised `requests.RequestException`; any other raised
exception is not caught. -/
def quotaAbsorbed : RequestsBeh → Bool
  | .response _ _ _ => true
  | .raise e => isReqExc e

/-- Curl behaviour for the claim's concrete scenario: 50 ms 200-OK on the
first address, 10 ms redirect on the second, connection refused on the
third. -/
def c3Curl : String → CurlBeh := fun ip =>
  if ip = "1.1.1.1" then CurlBeh.ok 50 "HTTP/1.1 200 OK\nServer: x\n"
  else if ip = "2.2.2.2" then CurlBeh.ok 10 "HTTP/1.1 301 Moved Permanently\n"
  else CurlBeh.cpe "connection refused"

/-- Curl behaviour with an equal-latency tie: a redirect on the first
address and a 200 OK on the second, both at 10 ms. -/
def c3TieCurl : String → CurlBeh := fun ip =>
  if ip = "1.1.1.1" then CurlBeh.ok 10 "HTTP/1.1 301 Moved Permanently\n"
  else CurlBeh.ok 10 "HTTP/1.1 200 OK\n"

/-- Ping oracle that times out everywhere. -/
def c9Ping : String → PingBeh := fun _ => PingBeh.timeout

/-- Curl behaviour for the fallback: connection refused. -/
def c9Curl : String → CurlBeh := fun _ => CurlBeh.cpe "refused"

/-- Ping classifications after which check_ping returns without the HTTP
fallback (success and unexpected-exception paths). -/
def pingNoFallback : PingBeh → Bool
  | .ok _ => true
  | .exc _ => true
  | .cpe _ _ => false
  | .timeout => false

/-- Ping oracles agreeing on the first address, differing on the second. -/
def c10PingA : String → PingBeh := fun ip =>
  if ip = "1.1.1.1" then PingBeh.ok "rtt min/avg/max/mdev = 1.0/2.0/3.0/0.5 ms"
  else PingBeh.cpe 1 "x"

/-- See c10PingA. -/
def c10PingB : String → PingBeh := fun ip =>
  if ip = "1.1.1.1" then PingBeh.ok "rtt min/avg/max/mdev = 1.0/2.0/3.0/0.5 ms"
  else PingBeh.timeout

/-- Curl behaviour for the C10 witness. -/
def c10Curl : String → CurlBeh := fun _ => CurlBeh.timeout

/-- Ping oracle that is unreachable everywhere (triggers the HTTP fallback). -/
def c10PingU : String → PingBeh := fun _ => PingBeh.cpe 1 "Destination Host Unreachable"

/-- Curl behaviour distinguishing the two addresses. -/
def c10CurlD : String → CurlBeh := fun ip =>
  if ip = "1.1.1.1" then CurlBeh.ok 10 "HTTP/1.1 200 OK\n"
  else CurlBeh.ok 5 "HTTP/1.1 200 OK\n"

/-- Concrete host file lines for the C4 witness. -/
def c4Lines : List String := ["fast.com", "", "slow.com", "bad host"]

/-- Concrete check_host behaviour for the C4 witness. -/
def c4Check : String → Except PyExc (String × String) := fun h =>
  if h = "fast.com" then
    .ok ("green", "[200 OK] fast.com (IP: 1.1.1.1, Port: 443, Response: 10.50 ms) is active!")
  else
    .ok ("yellow", "[Redirect] slow.com (IP: 2.2.2.2, Port: 443, Response: 50.00 ms) may be usable.")

/-! ## Basic lemmas about the embedded operations -/

lemma pyTry_total {α : Type} (body : Except PyExc α) (handler : PyExc → Option α)
    (h : ∀ e, ∃ a, handler e = some a) : ∃ v, pyTry body handler = Except.ok v := by
  cases body with
  | ok a => exact ⟨a, rfl⟩
  | error e =>
    obtain ⟨a, ha⟩ := h e
    exact ⟨a, by simp [pyTry, ha]⟩

lemma curlProbe_ok (host ip : String) (port : Nat) (beh : CurlBeh) :
    ∃ v, curlProbe host ip port beh = Except.ok v := by
  apply pyTry_total
  intro e
  cases e <;> exact ⟨_, rfl⟩

lemma checkHostLoop_ok (host : String) (port : Nat) (curl : String → CurlBeh) :
    ∀ ips : List String, ∃ out, checkHostLoop host port curl ips = Except.ok out := by
  intro ips
  induction ips with
  | nil => exact ⟨_, rfl⟩
  | cons ip rest ih =>
    by_cases hip : ip = "N/A"
    · simp only [checkHostLoop, hip, if_pos]
      exact ⟨_, rfl⟩
    · obtain ⟨v, hv⟩ := curlProbe_ok host ip port (curl ip)
      obtain ⟨out, hout⟩ := ih
      simp only [checkHostLoop, hip, if_neg, hv, hout, ite_false]
      cases out with
      | early r n => exact ⟨_, rfl⟩
      | done es n => exact ⟨_, rfl⟩

lemma check_host_ips_ok (host : String) (ips : List String) (port : Nat)
    (curl : String → CurlBeh) : ∃ r, check_host_ips host ips port curl = Except.ok r := by
  obtain ⟨out, hout⟩ := checkHostLoop_ok host port curl ips
  cases out with
  | early r n =>
    simp only [check_host_ips, hout]
    exact ⟨_, rfl⟩
  | done es n =>
    simp only [check_host_ips, hout]
    cases List.insertionSort timeLe es with
    | nil => exact ⟨_, rfl⟩
    | cons best others => exact ⟨_, rfl⟩

lemma check_host_ips_msg (host : String) (ips : List String) (port : Nat)
    (curl : String → CurlBeh) :
    ∃ c, check_host_ips host ips port curl =
      Except.ok (c, check_host_msg host ips port curl) := by
  obtain ⟨r, hr⟩ := check_host_ips_ok host ips port curl
  exact ⟨r.1, by simp [check_host_msg, hr]⟩

lemma get_host_ips_ne_nil (beh : DigBeh) : get_host_ips beh ≠ [] := by
  cases beh with
  | ok stdout =>
    simp only [get_host_ips]
    by_cases he : (((pySplitlines stdout).map pyStrip).filter isDottedQuad).isEmpty
    · simp [he]
    · simp only [he, if_neg, Bool.false_eq_true, not_false_eq_true, ite_false]
      exact fun hnil => he (by simp [hnil])
  | cpe e => simp [get_host_ips]
  | timeout => simp [get_host_ips]
  | exc m => simp [get_host_ips]

/-! ## C2 — resolution is total and returns the sentinel on failure -/

/-- C2: for every behaviour of the dig lookup, get_host_ips returns a
non-empty list, and on any resolution failure (command error, timeout, no A
records, unexpected exception) it returns exactly the sentinel `["N/A"]`. -/
theorem C2_resolve_nonempty_sentinel (beh : DigBeh) :
    get_host_ips beh ≠ [] ∧ (digFailed beh = true → get_host_ips beh = ["N/A"]) := by
  refine ⟨get_host_ips_ne_nil beh, fun hf => ?_⟩
  cases beh with
  | ok stdout =>
    simp only [digFailed] at hf
    simp [get_host_ips, hf]
  | cpe e => rfl
  | timeout => rfl
  | exc m => rfl

/-- C2 witness: at the concrete timed-out lookup, the result is the
non-empty sentinel list. -/
theorem C2_resolve_nonempty_sentinel_witness :
    get_host_ips DigBeh.timeout ≠ [] ∧ get_host_ips DigBeh.timeout = ["N/A"] :=
  ⟨(C2_resolve_nonempty_sentinel DigBeh.timeout).1,
   (C2_resolve_nonempty_sentinel DigBeh.timeout).2 rfl⟩

/-! ## C6 — resolution does not deduplicate -/

/-- C6 counterexample: a lookup output listing the same A record twice
resolves to a list with that address twice — duplicates are not removed,
contradicting the claim that the address list contains no duplicates. -/
theorem C6_counterexample :
    get_host_ips (DigBeh.ok "1.1.1.1\n1.1.1.1\n") = ["1.1.1.1", "1.1.1.1"] ∧
    ¬ (["1.1.1.1", "1.1.1.1"] : List String).Nodup := by
  exact ⟨rfl, by decide⟩

/-- C6 amended: resolution keeps the IPv4-matching lines of the lookup output
in order **with their multiplicities**: each address occurs in the result
exactly as often as it occurs among the stripped output lines (no
deduplication is performed). -/
theorem C6_resolve_keeps_duplicates (stdout ip : String) (h : isDottedQuad ip = true) :
    (get_host_ips (DigBeh.ok stdout)).count ip =
      ((pySplitlines stdout).map pyStrip).count ip := by
  simp only [get_host_ips]
  by_cases he : (((pySplitlines stdout).map pyStrip).filter isDottedQuad).isEmpty
  · rw [if_pos he]
    have h2 : ((pySplitlines stdout).map pyStrip).filter isDottedQuad = [] :=
      List.isEmpty_iff.mp he
    have hnm : ip ∉ (pySplitlines stdout).map pyStrip := by
      intro hmem
      have : ip ∈ ((pySplitlines stdout).map pyStrip).filter isDottedQuad :=
        List.mem_filter.mpr ⟨hmem, h⟩
      simp [h2] at this
    have hipna : ip ≠ "N/A" := by
      intro hh
      rw [hh] at h
      exact absurd h (by decide)
    rw [List.count_eq_zero.mpr hnm]
    simp [List.count_cons, hipna]
  · rw [if_neg he]
    exact List.count_filter h

/-- C6 amended witness: a duplicated record is returned twice. -/
theorem C6_resolve_keeps_duplicates_witness :
    isDottedQuad "1.1.1.1" = true ∧
    (get_host_ips (DigBeh.ok "1.1.1.1\n8.8.8.8\n1.1.1.1\n")).count "1.1.1.1" =
      ((pySplitlines "1.1.1.1\n8.8.8.8\n1.1.1.1\n").map pyStrip).count "1.1.1.1" :=
  ⟨by decide, C6_resolve_keeps_duplicates _ _ (by decide)⟩

/-! ## C7 — memoization is an LRU cache of capacity 128 -/

/-- C7 amended: an immediately repeated resolve of the same host is a cache
hit: it returns the identical result and performs no additional dig lookup,
from any cache state. -/
theorem C7_repeat_resolve_hits (dig : String → DigBeh) (st : CacheState) (host : String) :
    (cachedResolve dig (cachedResolve dig st host).2 host).1 =
      (cachedResolve dig st host).1 ∧
    (cachedResolve dig (cachedResolve dig st host).2 host).2.lookups =
      (cachedResolve dig st host).2.lookups := by
  cases hl : lruLookup host st.entries with
  | some v => simp [cachedResolve, hl, lruLookup]
  | none =>
    have htake :
        List.take 128 ((host, get_host_ips (dig host)) :: st.entries) =
          (host, get_host_ips (dig host)) :: List.take 127 st.entries := rfl
    simp [cachedResolve, hl, htake, lruLookup]

/-- C7 counterexample: the cache holds 128 entries.  Resolving host "A", then
128 distinct other hosts, evicts "A", so a second resolve of "A" within the
same process performs an additional (130th) lookup — the claim's
"memoized for the lifetime of the process / no second lookup" fails. -/
theorem C7_counterexample :
    (runResolves c7Dig ⟨[], 0⟩ (("A" :: c7Fillers) ++ ["A"])).lookups = 130 ∧
    (runResolves c7Dig ⟨[], 0⟩ ("A" :: c7Fillers)).lookups = 129 := by
  exact ⟨rfl, rfl⟩

/-! ## C8 — unresolved host: single error outcome, no probes -/

/-- C8: when resolution yielded the unresolved sentinel, check_host returns
the single synthetic error outcome (red, one fixed message line) and attempts
zero curl probes. -/
theorem C8_unresolved_single_error_no_probe (host : String) (port : Nat)
    (curl : String → CurlBeh) :
    check_host_ips host ["N/A"] port curl =
      Except.ok ("red", "[Error] " ++ host ++ " (IP: N/A) failed to resolve.") ∧
    check_host_probes host ["N/A"] port curl = 0 := by
  exact ⟨rfl, rfl⟩

/-! ## C1 — totality of the probing operations -/

/-- C1 amended: the HTTP check, the ping check and the WebSocket tunnel check
return a classified (color, message) result for every input and every
behaviour of the network layer and never raise; the quota-bypass check
returns a result for every response and for raised `RequestException`s, but
lets any other (unexpected internal) exception escape its boundary —
`isOkE (check_quota_bug ...)` equals `quotaAbsorbed req`, not `true`. -/
theorem C1_probe_totality :
    (∀ (host : String) (port : Nat) (dig : DigBeh) (curl : String → CurlBeh),
      isOkE (check_host host port dig curl) = true) ∧
    (∀ (host : String) (dig : DigBeh) (ping : String → PingBeh) (curl : String → CurlBeh),
      isOkE (check_ping host dig ping curl) = true) ∧
    (∀ (host : String) (port : Nat) (path protocol cred : String) (tls : Bool) (ws : WsBeh),
      isOkE (check_vmess_trojan host port path protocol cred tls ws) = true) ∧
    (∀ (host : String) (port : Nat) (req : RequestsBeh),
      isOkE (check_quota_bug host port req) = quotaAbsorbed req) := by
  refine ⟨?_, ?_, ?_, ?_⟩
  · intro host port dig curl
    obtain ⟨r, hr⟩ := check_host_ips_ok host (get_host_ips dig) port curl
    simp [check_host, hr, isOkE]
  · intro host dig ping curl
    cases hips : get_host_ips dig with
    | nil => exact absurd hips (get_host_ips_ne_nil dig)
    | cons ip rest =>
      simp only [check_ping, hips, check_ping_core]
      by_cases hna : ip = "N/A"
      · simp [hna, isOkE]
      · rw [if_neg hna]
        cases ping ip with
        | ok stdout => rfl
        | cpe rc stderr =>
          obtain ⟨r, hr⟩ := check_host_ips_ok host (ip :: rest) 443 curl
          simp [hr, isOkE]
        | timeout =>
          obtain ⟨r, hr⟩ := check_host_ips_ok host (ip :: rest) 443 curl
          simp [hr, isOkE]
        | exc m => rfl
  · intro host port path protocol cred tls ws
    simp only [check_vmess_trojan]
    by_cases h1 : (protocol = "vmess" && !(validate_uuid cred)) = true
    · simp [h1, isOkE]
    · rw [if_neg h1]
      by_cases h2 : (protocol = "trojan" && decide (cred.length < 8)) = true
      · simp [h2, isOkE]
      · rw [if_neg h2]
        cases ws with
        | recv response isJson =>
          simp only [pyTry]
          split_ifs <;> rfl
        | wsExc m => rfl
        | exc m => rfl
  · intro host port req
    cases req with
    | response status text headers =>
      simp only [check_quota_bug, quotaAbsorbed, pyTry]
      split_ifs <;> rfl
    | raise e =>
      cases e <;> simp [check_quota_bug, pyTry, quotaAbsorbed, isReqExc, isOkE]

/-- C1 counterexample: an unexpected (non-RequestException) exception from
the network layer escapes check_quota_bug's boundary — the claim that every
probing operation never raises is false for the quota-bypass check. -/
theorem C1_counterexample :
    check_quota_bug "example.com" 443 (RequestsBeh.raise (PyExc.other "boom")) =
      Except.error (PyExc.other "boom") := rfl

/-! ## C3 — ranking by latency, failures last, ties by address order -/

lemma check_host_ranked_sorted (host : String) (ips : List String) (port : Nat)
    (curl : String → CurlBeh) :
    List.Sorted timeLe (check_host_ranked host ips port curl) := by
  cases h : checkHostLoop host port curl ips with
  | error e => simp [check_host_ranked, h]
  | ok out =>
    cases out with
    | early r n => simp [check_host_ranked, h]
    | done es n => simpa [check_host_ranked, h] using List.sorted_insertionSort timeLe es

/-- C3 amended: outcomes are ranked by latency ascending with failures
(`float("inf")` keys) last — the concrete scenario [50ms OK, 10ms Redirect,
failure] ranks as [10ms Redirect, 50ms OK, failure], and the ranked list is
always sorted by its latency key — but at equal latency the best-outcome
selection keeps the earlier-probed address's outcome (the sort is stable and
uses the latency key only): with a 10ms Redirect probed before a 10ms OK the
selected colour is yellow, not green. -/
theorem C3_ranking_latency_stable :
    check_host_ranked "h.co" ["1.1.1.1", "2.2.2.2", "3.3.3.3"] 443 c3Curl =
      [(((10 : ℚ) : Latency),
          "[Redirect] h.co (IP: 2.2.2.2, Port: 443, Response: 10.00 ms) may be usable."),
       (((50 : ℚ) : Latency),
          "[200 OK] h.co (IP: 1.1.1.1, Port: 443, Response: 50.00 ms) is active!"),
       ((⊤ : Latency),
          "[Failed] h.co (IP: 3.3.3.3, Port: 443) curl error: connection refused")] ∧
    (∀ (host : String) (ips : List String) (port : Nat) (curl : String → CurlBeh),
      List.Sorted timeLe (check_host_ranked host ips port curl)) ∧
    check_host_ips "h.co" ["1.1.1.1", "2.2.2.2"] 443 c3TieCurl =
      Except.ok ("yellow",
        "[Redirect] h.co (IP: 1.1.1.1, Port: 443, Response: 10.00 ms) may be usable.\n" ++
          "[200 OK] h.co (IP: 2.2.2.2, Port: 443, Response: 10.00 ms) is active!") :=
  ⟨rfl, fun host ips port curl => check_host_ranked_sorted host ips port curl, rfl⟩

/-- C3 counterexample: at equal latency the code selects the earlier-probed
Redirect (colour yellow), not the OK (colour green) — the claim's tie-break
"prefers OK over Redirect at equal latency" fails. -/
theorem C3_counterexample :
    check_host_ips "h.co" ["1.1.1.1", "2.2.2.2"] 443 c3TieCurl =
      Except.ok ("yellow",
        "[Redirect] h.co (IP: 1.1.1.1, Port: 443, Response: 10.00 ms) may be usable.\n" ++
          "[200 OK] h.co (IP: 2.2.2.2, Port: 443, Response: 10.00 ms) is active!") ∧
    ("yellow" : String) ≠ "green" :=
  ⟨rfl, by decide⟩

/-! ## C9 — ping timeout: Timeout status and exactly one HTTP fallback -/

/-- C9: when the ping of the only resolved address times out, check_ping
returns the Timeout classification (colour orange3, message starting
`[Timeout]`), invokes the HTTP fallback exactly once, and embeds the
fallback's message in the returned detail. -/
theorem C9_ping_timeout_one_fallback (host ip : String) (ping : String → PingBeh)
    (curl : String → CurlBeh) (h1 : ip ≠ "N/A") (h2 : ping ip = PingBeh.timeout) :
    check_ping_core host [ip] ping curl =
      Except.ok (("orange3",
        "[Timeout] " ++ host ++ " (IP: " ++ ip ++
          ") took too long to respond.\nHTTPS Test:\n" ++
          check_host_msg host [ip] 443 curl), 1) := by
  obtain ⟨c, hc⟩ := check_host_ips_msg host [ip] 443 curl
  simp only [check_ping_core]
  rw [if_neg h1, h2, hc]

/-- C9 witness: the concrete timed-out ping of a single resolved address. -/
theorem C9_ping_timeout_one_fallback_witness :
    ("1.1.1.1" : String) ≠ "N/A" ∧ c9Ping "1.1.1.1" = PingBeh.timeout ∧
    check_ping_core "example.com" ["1.1.1.1"] c9Ping c9Curl =
      Except.ok (("orange3",
        "[Timeout] example.com (IP: 1.1.1.1) took too long to respond.\nHTTPS Test:\n" ++
          check_host_msg "example.com" ["1.1.1.1"] 443 c9Curl), 1) :=
  ⟨by decide, rfl,
   C9_ping_timeout_one_fallback "example.com" "1.1.1.1" c9Ping c9Curl (by decide) rfl⟩

/-! ## C10 — the ping targets only the first resolved address -/

/-- C10 amended: the ping itself targets only the first resolved address —
the result never depends on the ping behaviour at any other address — and on
the no-fallback paths (ping success, resolution sentinel, unexpected error)
the whole result is determined by the first address alone.  (On the
timeout/unreachable paths the HTTP fallback probes every resolved address,
so the detail message may depend on the rest of the list.) -/
theorem C10_ping_first_only :
    (∀ (host ip : String) (rest : List String) (ping ping2 : String → PingBeh)
        (curl : String → CurlBeh), ping ip = ping2 ip →
      check_ping_core host (ip :: rest) ping curl =
        check_ping_core host (ip :: rest) ping2 curl) ∧
    (∀ (host ip : String) (rest : List String) (ping : String → PingBeh)
        (curl : String → CurlBeh), pingNoFallback (ping ip) = true →
      check_ping_core host (ip :: rest) ping curl =
        check_ping_core host [ip] ping curl) := by
  constructor
  · intro host ip rest ping ping2 curl h
    simp only [check_ping_core, h]
  · intro host ip rest ping curl h
    simp only [check_ping_core]
    by_cases hna : ip = "N/A"
    · simp [hna]
    · rw [if_neg hna, if_neg hna]
      cases hp : ping ip with
      | ok stdout => rfl
      | exc m => rfl
      | cpe rc stderr => rw [hp] at h; exact absurd h (by simp [pingNoFallback])
      | timeout => rw [hp] at h; exact absurd h (by simp [pingNoFallback])

/-- C10 witness: with two resolved addresses, changing the ping behaviour of
the second address does not change the result, and on a ping success the
result equals the single-address result. -/
theorem C10_ping_first_only_witness :
    c10PingA "1.1.1.1" = c10PingB "1.1.1.1" ∧
    check_ping_core "h.co" ["1.1.1.1", "2.2.2.2"] c10PingA c10Curl =
      check_ping_core "h.co" ["1.1.1.1", "2.2.2.2"] c10PingB c10Curl ∧
    pingNoFallback (c10PingA "1.1.1.1") = true ∧
    check_ping_core "h.co" ["1.1.1.1", "2.2.2.2"] c10PingA c10Curl =
      check_ping_core "h.co" ["1.1.1.1"] c10PingA c10Curl :=
  ⟨rfl,
   C10_ping_first_only.1 "h.co" "1.1.1.1" ["2.2.2.2"] c10PingA c10PingB c10Curl rfl,
   by decide,
   C10_ping_first_only.2 "h.co" "1.1.1.1" ["2.2.2.2"] c10PingA c10Curl (by decide)⟩

/-- C10 counterexample: on the unreachable path the fallback HTTP probe
covers every resolved address, so two address lists with the same first
element give different results — the result is not determined entirely by
the first element, refuting the claim as stated. -/
theorem C10_counterexample :
    (check_ping_core "h.co" ["1.1.1.1"] c10PingU c10CurlD).toOption ≠
      (check_ping_core "h.co" ["1.1.1.1", "2.2.2.2"] c10PingU c10CurlD).toOption := by
  decide

/-! ## C4 — batch scan: N−P results, sorted by best latency, empty cases -/

lemma decorate_ok (rs : List (String × String))
    (h : ∀ r ∈ rs, extract_response_time r.2 ≠ none) :
    ∃ ds, decorate rs = some ds ∧ ds.length = rs.length ∧
      ∀ p ∈ ds, extract_response_time p.2.2 = some p.1 := by
  induction rs with
  | nil => exact ⟨[], rfl, rfl, by simp⟩
  | cons r rs ih =>
    have hr : extract_response_time r.2 ≠ none := h r (by simp)
    obtain ⟨k, hk⟩ : ∃ k, extract_response_time r.2 = some k := by
      cases hx : extract_response_time r.2 with
      | none => exact absurd hx hr
      | some k => exact ⟨k, rfl⟩
    obtain ⟨ds, hds, hlen, hmem⟩ := ih (fun x hx => h x (by simp [hx]))
    refine ⟨(k, r) :: ds, by simp [decorate, hk, hds], by simp [hlen], ?_⟩
    intro p hp
    rcases List.mem_cons.mp hp with hp | hp
    · rw [hp]; exact hk
    · exact hmem p hp

/-- C4 counterexample: an existing but unreadable host file — `open()`
raising PermissionError — makes the scan raise past its boundary rather
than return the empty list, refuting the claim's "if the file is unreadable
... the scan returns the empty list" (only a non-existent path returns
`[]`). -/
theorem C4_counterexample :
    scan_hosts_from_file (FileBeh.openExc (PyExc.other "Permission denied")) c4Check =
      Except.error (PyExc.other "Permission denied") ∧
    Except.error (PyExc.other "Permission denied") ≠
      Except.ok ([] : List (String × String)) :=
  ⟨rfl, fun hh => Except.noConfusion hh⟩

/-- C4 amended: the scan of a non-existent host file is the empty batch, but
an existing file whose `open()` raises propagates the exception past the
scan's boundary (no handler exists); the scan of a readable file whose
stripped lines leave the valid hosts `lineHosts lines` (blank and invalid
lines dropped) returns exactly one result per valid host — N−P results — in
an order sorted ascending by the extracted best response time (messages
without a response time, i.e. failures, carry key `⊤` and hence sort last),
and the empty batch when zero valid hosts remain.  Hypothesis: the
response-time groups in the collected messages parse as floats (true of
every message check_host produces). -/
theorem C4_scan_count_sorted (lines : List String)
    (check : String → Except PyExc (String × String))
    (h : ∀ r ∈ scanResults check (lineHosts lines), extract_response_time r.2 ≠ none) :
    scan_hosts_from_file FileBeh.missing check = Except.ok [] ∧
    (∀ e : PyExc, scan_hosts_from_file (FileBeh.openExc e) check = Except.error e) ∧
    ∃ out, scan_hosts_from_file (FileBeh.lines lines) check = Except.ok out ∧
      out.length = (lineHosts lines).length ∧
      List.Sorted (fun a b => extractKey a ≤ extractKey b) out := by
  refine ⟨rfl, fun e => rfl, ?_⟩
  by_cases he : (lineHosts lines).isEmpty
  · refine ⟨[], by simp [scan_hosts_from_file, he], ?_, by simp⟩
    simp [List.isEmpty_iff.mp he]
  · obtain ⟨ds, hds, hlen, hmem⟩ := decorate_ok _ h
    refine ⟨(List.insertionSort keyLe ds).map Prod.snd, ?_, ?_, ?_⟩
    · simp [scan_hosts_from_file, he, hds]
    · rw [List.length_map, List.length_insertionSort, hlen, scanResults, List.length_map]
    · have hsorted : List.Sorted keyLe (List.insertionSort keyLe ds) :=
        List.sorted_insertionSort keyLe ds
      have hmem2 : ∀ p ∈ List.insertionSort keyLe ds,
          extract_response_time p.2.2 = some p.1 :=
        fun p hp => hmem p ((List.mem_insertionSort keyLe).mp hp)
      rw [List.Sorted, List.pairwise_map]
      refine hsorted.imp_of_mem ?_
      intro a b ha hb hr
      have h1 := hmem2 a ha
      have h2 := hmem2 b hb
      simp only [extractKey, h1, h2, Option.getD_some]
      exact hr

/-- C4 witness: four lines, one blank and one invalid, give two results,
sorted by extracted latency; the missing-file and open-failure cases at
concrete behaviours. -/
theorem C4_scan_count_sorted_witness :
    (∀ r ∈ scanResults c4Check (lineHosts c4Lines), extract_response_time r.2 ≠ none) ∧
    (scan_hosts_from_file FileBeh.missing c4Check = Except.ok [] ∧
     (∀ e : PyExc, scan_hosts_from_file (FileBeh.openExc e) c4Check = Except.error e) ∧
     ∃ out, scan_hosts_from_file (FileBeh.lines c4Lines) c4Check = Except.ok out ∧
       out.length = (lineHosts c4Lines).length ∧
       List.Sorted (fun a b => extractKey a ≤ extractKey b) out) :=
  ⟨by decide, C4_scan_count_sorted c4Lines c4Check (by decide)⟩

/-! ## C5 — string and split lemmas -/

lemma hasSub_single (c : Char) (l : List Char) :
    hasSub [c] l = l.any (fun d => d = c) := by
  induction l with
  | nil => rfl
  | cons d ds ih =>
    simp only [hasSub, leadsWith, List.any_cons, ih, Bool.and_true]
    by_cases h : c = d
    · simp [h]
    · simp [h, Ne.symm h]

lemma hasSub_double (c : Char) (l : List Char) (h : hasSub [c, c] l = true) :
    hasSub [c] l = true := by
  induction l with
  | nil => simp [hasSub, leadsWith] at h
  | cons d ds ih =>
    simp only [hasSub, leadsWith, Bool.or_eq_true, Bool.and_eq_true] at h ⊢
    rcases h with ⟨h1, _⟩ | h2
    · exact Or.inl ⟨h1, trivial⟩
    · exact Or.inr (ih h2)

lemma leadsWith_single_false (c x : Char) (l : List Char) (h : l.head? = some x)
    (hx : x ≠ c) : leadsWith [c] l = false := by
  cases l with
  | nil => simp at h
  | cons d ds =>
    have : d = x := by simpa using h
    subst this
    simp only [leadsWith, Bool.and_eq_false_imp]
    simp only [decide_eq_true_eq]
    exact fun hh => absurd hh.symm hx

lemma charSplit_ne_nil (c : Char) (l : List Char) : charSplit c l ≠ [] := by
  induction l with
  | nil => simp [charSplit]
  | cons d ds ih =>
    simp only [charSplit]
    by_cases h : d = c
    · simp [h]
    · simp only [h, ite_false, if_neg]
      cases hs : charSplit c ds with
      | nil => exact absurd hs ih
      | cons g gs => simp

lemma joinGroups_charSplit (c : Char) (l : List Char) :
    joinGroups c (charSplit c l) = l := by
  induction l with
  | nil => rfl
  | cons d ds ih =>
    by_cases h : d = c
    · subst h
      simp only [charSplit, if_pos rfl]
      cases hs : charSplit d ds with
      | nil => exact absurd hs (charSplit_ne_nil d ds)
      | cons g gs =>
        rw [hs] at ih
        simp [joinGroups, ih]
    · simp only [charSplit, h, ite_false, if_neg]
      cases hs : charSplit c ds with
      | nil => exact absurd hs (charSplit_ne_nil c ds)
      | cons g gs =>
        rw [hs] at ih
        cases gs with
        | nil => simp [joinGroups] at ih ⊢; rw [ih]
        | cons g2 gs2 => simp [joinGroups] at ih ⊢; rw [ih]

lemma charSplit_sep_not_mem (c : Char) (l : List Char) :
    ∀ g ∈ charSplit c l, c ∉ g := by
  induction l with
  | nil =>
    intro g hg
    simp [charSplit] at hg
    simp [hg]
  | cons d ds ih =>
    intro g hg
    by_cases h : d = c
    · simp only [charSplit, h, if_pos rfl] at hg
      rcases List.mem_cons.mp hg with hg | hg
      · simp [hg]
      · exact ih g hg
    · simp only [charSplit, h, ite_false, if_neg] at hg
      cases hs : charSplit c ds with
      | nil => exact absurd hs (charSplit_ne_nil c ds)
      | cons g0 gs =>
        rw [hs] at hg
        rcases List.mem_cons.mp hg with hg | hg
        · subst hg
          intro hmem
          rcases List.mem_cons.mp hmem with hx | hx
          · exact h hx.symm
          · exact ih g0 (by simp [hs]) hx
        · exact ih g (by simp [hs, hg])

lemma joinGroups_ne_nil (c : Char) (g : List Char) (gs : List (List Char)) (hg : g ≠ []) :
    joinGroups c (g :: gs) ≠ [] := by
  cases gs with
  | nil => simpa [joinGroups] using hg
  | cons g2 gs2 => simp [joinGroups]

lemma joinGroups_head (c : Char) (g : List Char) (gs : List (List Char)) (hg : g ≠ []) :
    (joinGroups c (g :: gs)).head? = g.head? := by
  cases gs with
  | nil => rfl
  | cons g2 gs2 =>
    simp only [joinGroups]
    exact List.head?_append_of_ne_nil _ hg

lemma joinGroups_getLast (c : Char) (gs : List (List Char))
    (h : ∀ g ∈ gs, g ≠ []) (hne : gs ≠ []) :
    (joinGroups c gs).getLast? = ((gs.getLast?).getD []).getLast? := by
  induction gs with
  | nil => exact absurd rfl hne
  | cons g gs2 ih =>
    cases gs2 with
    | nil => simp [joinGroups]
    | cons g2 gs3 =>
      have h2 : ∀ x ∈ g2 :: gs3, x ≠ [] := fun x hx => h x (List.mem_cons_of_mem _ hx)
      have hjne : joinGroups c (g2 :: gs3) ≠ [] := joinGroups_ne_nil c g2 gs3 (h2 g2 (by simp))
      have hstep : (c :: joinGroups c (g2 :: gs3)).getLast? =
          (joinGroups c (g2 :: gs3)).getLast? := by
        simpa using @List.getLast?_append_of_ne_nil _ [c] (joinGroups c (g2 :: gs3)) hjne
      simp only [joinGroups]
      rw [List.getLast?_append_of_ne_nil _ (by simp), hstep, ih h2 (by simp)]
      simp

lemma hasSub_dd_append (c : Char) (g u : List Char) (hg : c ∉ g) :
    hasSub [c, c] (g ++ u) = hasSub [c, c] u := by
  induction g with
  | nil => rfl
  | cons d g2 ih =>
    have hd : ¬ (c = d) := fun hh => hg (by simp [hh])
    have hg2 : c ∉ g2 := fun hh => hg (by simp [hh])
    simp only [List.cons_append, hasSub, leadsWith, hd]
    simp only [decide_eq_true_eq, hd, false_and, Bool.false_or, decide_False, Bool.false_and]
    exact ih hg2

lemma joinGroups_no_dd (c : Char) (gs : List (List Char))
    (h : ∀ g ∈ gs, g ≠ [] ∧ c ∉ g) :
    hasSub [c, c] (joinGroups c gs) = false := by
  induction gs with
  | nil => rfl
  | cons g gs2 ih =>
    obtain ⟨hgne, hgc⟩ := h g (by simp)
    cases gs2 with
    | nil =>
      have := hasSub_dd_append c g [] hgc
      simpa [joinGroups] using this
    | cons g2 gs3 =>
      have h2 : ∀ x ∈ g2 :: gs3, x ≠ [] ∧ c ∉ x := fun x hx => h x (by simp [hx])
      obtain ⟨hg2ne, hg2c⟩ := h2 g2 (by simp)
      have hhead : (joinGroups c (g2 :: gs3)).head? = g2.head? := joinGroups_head c g2 gs3 hg2ne
      obtain ⟨x, hx, hxne⟩ : ∃ x, g2.head? = some x ∧ x ≠ c := by
        cases g2 with
        | nil => exact absurd rfl hg2ne
        | cons y ys => exact ⟨y, rfl, fun hh => hg2c (by simp [hh.symm])⟩
      have hlw : leadsWith [c] (joinGroups c (g2 :: gs3)) = false :=
        leadsWith_single_false c x _ (by rw [hhead, hx]) hxne
      simp only [joinGroups]
      rw [hasSub_dd_append c g _ hgc]
      simp only [hasSub, ih h2, leadsWith, hlw]
      simp

lemma joinGroups_all (c : Char) (p : Char → Bool) (gs : List (List Char))
    (hc : p c = true) (h : ∀ g ∈ gs, g.all p = true) :
    (joinGroups c gs).all p = true := by
  induction gs with
  | nil => rfl
  | cons g gs2 ih =>
    cases gs2 with
    | nil => simpa [joinGroups] using h g (by simp)
    | cons g2 gs3 =>
      have h1 := h g (by simp)
      have h2 := ih (fun x hx => h x (by simp [hx]))
      simp only [joinGroups, List.all_append, List.all_cons]
      simp [h1, hc, h2]

lemma alnumHyphen_of_alnum {c : Char} (h : c.isAlphanum = true) : alnumHyphen c = true := by
  simp [alnumHyphen, h]

lemma hostChar_of_alnumHyphen {c : Char} (h : alnumHyphen c = true) : hostChar c = true := by
  simp only [alnumHyphen, Bool.or_eq_true, decide_eq_true_eq] at h
  rcases h with h1 | h1
  · simp [hostChar, h1]
  · simp [hostChar, h1]

lemma labelOk_mk (g : List Char) : labelOk (String.mk g) = specLabel g := by
  cases g with
  | nil => rfl
  | cons c rest =>
    rcases List.eq_nil_or_concat rest with hr | ⟨ys, y, hr⟩
    · subst hr; rfl
    · rw [List.concat_eq_append] at hr
      subst hr
      have hlast : (c :: (ys ++ [y])).getLast? = some y := by
        rw [← List.cons_append]
        exact List.getLast?_concat _
      simp only [labelOk, specLabel, List.dropLast_concat, List.getLast?_concat, hlast,
        List.head?_cons, List.length_cons, List.length_append, List.length_singleton,
        List.all_cons, List.all_append, Bool.and_eq_true]
      rw [Bool.eq_iff_iff]
      simp only [Bool.and_eq_true, Bool.not_eq_true', List.isEmpty_eq_false, ne_eq,
        decide_eq_true_eq, List.all_nil, Bool.and_true, List.length_nil, alnumHyphen,
        Bool.or_eq_true]
      constructor
      · rintro ⟨⟨⟨⟨-, hA⟩, hlen⟩, hmid⟩, hy⟩
        refine ⟨⟨⟨⟨by omega, by omega⟩, hA⟩, hy⟩, ⟨Or.inl hA, hmid, Or.inl hy⟩⟩
      · rintro ⟨⟨⟨⟨-, hlen⟩, hA⟩, hy⟩, -, hmid, -⟩
        refine ⟨⟨⟨⟨by simp, hA⟩, by omega⟩, hmid⟩, hy⟩

lemma tldOk_mk (g : List Char) : tldOk (String.mk g) = specTLD g := rfl

lemma ipv4Octet_mk (p : List Char) : ipv4Octet (String.mk p) = specOctet p := by
  cases p with
  | nil => rfl
  | cons x xs => rfl

lemma validHostIPv4_mk (l : List Char) : validHostIPv4 (String.mk l) = specIPv4 l := by
  rcases hgs : charSplit '.' l with _ | ⟨a, _ | ⟨b, _ | ⟨c2, _ | ⟨d, _ | ⟨e, tl⟩⟩⟩⟩⟩ <;>
    simp [validHostIPv4, specIPv4, pySplit, hgs, ipv4Octet_mk]

lemma sep_check_iff (l : List Char) :
    (pyContains (String.mk l) "//" || pyContains (String.mk l) "/" ||
     pyContains (String.mk l) "@" || pyContains (String.mk l) ":" ||
     pyContains (String.mk l) "?" || pyContains (String.mk l) "#") = l.any sepChar := by
  have e1 : pyContains (String.mk l) "//" = hasSub ['/', '/'] l := rfl
  have e2 : pyContains (String.mk l) "/" = hasSub ['/'] l := rfl
  have e3 : pyContains (String.mk l) "@" = hasSub ['@'] l := rfl
  have e4 : pyContains (String.mk l) ":" = hasSub [':'] l := rfl
  have e5 : pyContains (String.mk l) "?" = hasSub ['?'] l := rfl
  have e6 : pyContains (String.mk l) "#" = hasSub ['#'] l := rfl
  rw [e1, e2, e3, e4, e5, e6, Bool.eq_iff_iff]
  have single : ∀ c : Char, hasSub [c] l = true → sepChar c = true → l.any sepChar = true := by
    intro c hc hsc
    rw [hasSub_single] at hc
    obtain ⟨x, hx, hxc⟩ := List.any_eq_true.mp hc
    refine List.any_eq_true.mpr ⟨x, hx, ?_⟩
    rw [decide_eq_true_eq.mp hxc]
    exact hsc
  have hany : ∀ (x c : Char), x ∈ l → x = c → hasSub [c] l = true := by
    intro x c hx hc
    rw [hasSub_single]
    exact List.any_eq_true.mpr ⟨x, hx, by simp [hc]⟩
  constructor
  · intro h
    simp only [Bool.or_eq_true] at h
    rcases h with ((((hdd | h1) | h1) | h1) | h1) | h1
    · exact single '/' (hasSub_double '/' l hdd) (by decide)
    · exact single '/' h1 (by decide)
    · exact single '@' h1 (by decide)
    · exact single ':' h1 (by decide)
    · exact single '?' h1 (by decide)
    · exact single '#' h1 (by decide)
  · intro h
    obtain ⟨x, hx, hpx⟩ := List.any_eq_true.mp h
    simp only [sepChar, Bool.or_eq_true, decide_eq_true_eq] at hpx
    simp only [Bool.or_eq_true]
    rcases hpx with (((h1 | h1) | h1) | h1) | h1
    · exact Or.inl (Or.inl (Or.inl (Or.inl (Or.inr (hany x '/' hx h1)))))
    · exact Or.inl (Or.inl (Or.inl (Or.inr (hany x '@' hx h1))))
    · exact Or.inl (Or.inl (Or.inr (hany x ':' hx h1)))
    · exact Or.inl (Or.inr (hany x '?' hx h1))
    · exact Or.inr (hany x '#' hx h1)

lemma getLast?_mem_self {α : Type} {l : List α} {a : α} (h : l.getLast? = some a) :
    a ∈ l := by
  have hmem : a ∈ l.getLast? := by simp [h]
  obtain ⟨hne, heq⟩ := List.mem_getLast?_eq_getLast hmem
  rw [heq]
  exact List.getLast_mem hne

lemma specLabel_ne_nil {g : List Char} (h : specLabel g = true) : g ≠ [] := by
  intro hg
  rw [hg] at h
  exact absurd h (by decide)

lemma specLabel_parts {g : List Char} (h : specLabel g = true) :
    (2 ≤ g.length ∧ g.length ≤ 63) ∧ g.all alnumHyphen = true ∧
    (∃ c, g.head? = some c ∧ c.isAlphanum = true) ∧
    (∃ c, g.getLast? = some c ∧ c.isAlphanum = true) := by
  simp only [specLabel, Bool.and_eq_true, decide_eq_true_eq] at h
  obtain ⟨⟨⟨⟨h1, h2⟩, h3⟩, h4⟩, h5⟩ := h
  refine ⟨⟨h1, h2⟩, h5, ?_, ?_⟩
  · cases hh : g.head? with
    | none => rw [hh] at h3; exact absurd h3 (by decide)
    | some c => rw [hh] at h3; exact ⟨c, rfl, h3⟩
  · cases hh : g.getLast? with
    | none => rw [hh] at h4; exact absurd h4 (by decide)
    | some c => rw [hh] at h4; exact ⟨c, rfl, h4⟩

lemma all_labelOk_map (gs : List (List Char)) :
    (gs.map String.mk).all labelOk = gs.all specLabel := by
  induction gs with
  | nil => rfl
  | cons g gs2 ih => simp [List.all_cons, ih, labelOk_mk]

lemma any_badLen_map (gs : List (List Char)) :
    (gs.map String.mk).any (fun s => s.length = 0 || 63 < s.length) =
      gs.any (fun g => g.length = 0 || 63 < g.length) := by
  induction gs with
  | nil => rfl
  | cons g gs2 ih =>
    simp only [List.map_cons, List.any_cons, ih]
    rfl

lemma tld_transport (l : List Char) :
    tldOk (((pySplit '.' (String.mk l)).getLast?).getD "") =
      specTLD (((charSplit '.' l).getLast?).getD []) := by
  have e : pySplit '.' (String.mk l) = (charSplit '.' l).map String.mk := rfl
  rw [e, List.getLast?_map]
  cases hgl : (charSplit '.' l).getLast? with
  | none => rfl
  | some g => simpa using tldOk_mk g

lemma specDNS_charset {l : List Char} (h : (charSplit '.' l).all specLabel = true) :
    l.all hostChar = true := by
  conv_lhs => rw [← joinGroups_charSplit '.' l]
  apply joinGroups_all
  · decide
  · intro g hg
    have hs := List.all_eq_true.mp h g hg
    have hAH := (specLabel_parts hs).2.1
    rw [List.all_eq_true] at hAH ⊢
    exact fun x hx => hostChar_of_alnumHyphen (hAH x hx)

lemma specDNS_no_dd {l : List Char} (h : (charSplit '.' l).all specLabel = true) :
    pyContains (String.mk l) ".." = false := by
  have e : pyContains (String.mk l) ".." = hasSub ['.', '.'] l := rfl
  rw [e]
  conv_lhs => rw [← joinGroups_charSplit '.' l]
  apply joinGroups_no_dd
  intro g hg
  exact ⟨specLabel_ne_nil (List.all_eq_true.mp h g hg), charSplit_sep_not_mem '.' l g hg⟩

lemma alnum_ne_hyphen {c : Char} (h : c.isAlphanum = true) : c ≠ '-' := by
  intro hh
  rw [hh] at h
  exact absurd h (by decide)

lemma alnum_ne_dot {c : Char} (h : c.isAlphanum = true) : c ≠ '.' := by
  intro hh
  rw [hh] at h
  exact absurd h (by decide)

lemma specDNS_edges {l : List Char} (h : (charSplit '.' l).all specLabel = true) :
    (pyStartsWith (String.mk l) "-" || pyEndsWith (String.mk l) "-" ||
     pyStartsWith (String.mk l) "." || pyEndsWith (String.mk l) ".") = false := by
  cases hgs : charSplit '.' l with
  | nil => exact absurd hgs (charSplit_ne_nil '.' l)
  | cons g0 rest =>
    rw [hgs] at h
    have hg0 := List.all_eq_true.mp h g0 (by simp)
    have hg0ne := specLabel_ne_nil hg0
    obtain ⟨c0, hc0, hc0A⟩ := (specLabel_parts hg0).2.2.1
    have hheadl : l.head? = some c0 := by
      conv_lhs => rw [← joinGroups_charSplit '.' l, hgs]
      rw [joinGroups_head '.' g0 rest hg0ne, hc0]
    have hallne : ∀ g ∈ g0 :: rest, g ≠ [] :=
      fun g hg => specLabel_ne_nil (List.all_eq_true.mp h g hg)
    obtain ⟨glast, hglast⟩ : ∃ glast, (g0 :: rest).getLast? = some glast := by
      cases hg : (g0 :: rest).getLast? with
      | none => exact absurd (List.getLast?_eq_none_iff.mp hg) (by simp)
      | some glast => exact ⟨glast, rfl⟩
    have hglmem : glast ∈ g0 :: rest := getLast?_mem_self hglast
    have hgl := List.all_eq_true.mp h glast hglmem
    obtain ⟨cl, hcl, hclA⟩ := (specLabel_parts hgl).2.2.2
    have hlastl : l.getLast? = some cl := by
      conv_lhs => rw [← joinGroups_charSplit '.' l, hgs]
      rw [joinGroups_getLast '.' (g0 :: rest) hallne (by simp), hglast]
      simpa using hcl
    have hrevhead : l.reverse.head? = some cl := by
      rw [List.head?_reverse]
      exact hlastl
    have h1 : pyStartsWith (String.mk l) "-" = false :=
      leadsWith_single_false '-' c0 l hheadl (alnum_ne_hyphen hc0A)
    have h2 : pyEndsWith (String.mk l) "-" = false :=
      leadsWith_single_false '-' cl l.reverse hrevhead (alnum_ne_hyphen hclA)
    have h3 : pyStartsWith (String.mk l) "." = false :=
      leadsWith_single_false '.' c0 l hheadl (alnum_ne_dot hc0A)
    have h4 : pyEndsWith (String.mk l) "." = false :=
      leadsWith_single_false '.' cl l.reverse hrevhead (alnum_ne_dot hclA)
    simp [h1, h2, h3, h4]

lemma specDNS_lens {l : List Char} (h : (charSplit '.' l).all specLabel = true) :
    (pySplit '.' (String.mk l)).any (fun s => s.length = 0 || 63 < s.length) = false := by
  have e : pySplit '.' (String.mk l) = (charSplit '.' l).map String.mk := rfl
  rw [e, any_badLen_map]
  rw [List.any_eq_false]
  intro g hg
  obtain ⟨⟨hlo, hhi⟩, -, -, -⟩ := specLabel_parts (List.all_eq_true.mp h g hg)
  simp only [Bool.or_eq_true, decide_eq_true_eq]
  omega

lemma validate_host_stripped_eq (l : List Char) :
    validate_host_stripped (String.mk l) = hostSpec_core l := by
  by_cases h0 : l = []
  · subst h0; rfl
  · have hne : ¬(String.mk l = "") := fun hh => h0 (by simpa using congrArg String.data hh)
    have hiE : (!l.isEmpty) = true := by simp [h0]
    have hdata : (String.mk l).data = l := rfl
    rw [Bool.eq_iff_iff]
    simp only [validate_host_stripped, hostSpec_core, if_neg hne, hdata, sep_check_iff,
      validHostIPv4_mk, hiE, Bool.true_and]
    by_cases h1 : 253 < (String.mk l).length
    · rw [if_pos h1]
      have hx : decide (l.length ≤ 253) = false := by
        simp only [decide_eq_false_iff_not, not_le]
        exact h1
      simp [hx]
    · rw [if_neg h1]
      have hx : decide (l.length ≤ 253) = true := by
        simp only [decide_eq_true_eq, not_lt] at h1 ⊢
        exact h1
      simp only [hx, Bool.true_and]
      by_cases h2 : l.any sepChar = true
      · rw [if_pos h2]
        simp [h2]
      · rw [if_neg h2]
        have h2f : l.any sepChar = false := by
          cases hv : l.any sepChar
          · rfl
          · exact absurd hv h2
        simp only [h2f, Bool.not_false, Bool.true_and]
        by_cases h3 : specIPv4 l = true
        · rw [if_pos h3]
          simp [h3]
        · rw [if_neg h3]
          have h3f : specIPv4 l = false := by
            cases hv : specIPv4 l
            · rfl
            · exact absurd hv h3
          simp only [h3f, Bool.false_or]
          constructor
          · intro hval
            split_ifs at hval with hc he hd hl hall htld
            have hLab : (charSplit '.' l).all specLabel = true := by
              have e : pySplit '.' (String.mk l) = (charSplit '.' l).map String.mk := rfl
              have := hall
              rw [e, all_labelOk_map] at this
              simpa using this
            have hT : specTLD (((charSplit '.' l).getLast?).getD []) = true := by
              have := htld
              rw [tld_transport] at this
              simpa using this
            simp [specDNS, hLab, hT]
          · intro hs
            simp only [specDNS, Bool.and_eq_true] at hs
            obtain ⟨hall, htld⟩ := hs
            have hC := specDNS_charset hall
            have hE := specDNS_edges hall
            have hD := specDNS_no_dd hall
            have hL := specDNS_lens hall
            have hLab : (pySplit '.' (String.mk l)).all labelOk = true := by
              have e : pySplit '.' (String.mk l) = (charSplit '.' l).map String.mk := rfl
              rw [e, all_labelOk_map]
              exact hall
            have hT : tldOk (((pySplit '.' (String.mk l)).getLast?).getD "") = true := by
              rw [tld_transport]
              exact htld
            simp only [Bool.or_eq_true] at hE
            simp [hC, hD, hL, hLab, hT, hE]

/-! ## C5 — the validation grammar -/

/-- C5 counterexample: the claim says validation accepts "a.b.co", but the
label pattern requires at least two characters per label, so "a.b.co" is
rejected. -/
theorem C5_counterexample : validate_host "a.b.co" = false := by decide

/-- C5 amended: host validation accepts a string iff, after stripping
surrounding whitespace, it is non-empty, at most 253 characters, contains
none of `/ @ : ? #`, and matches either the IPv4 dotted-quad grammar
(octets of one to three digits valued ≤ 255) or the DNS grammar with labels
of **2**–63 characters (alphanumerics/hyphens, no leading/trailing hyphen,
no empty labels) whose final label is alphabetic of length ≥ 2; in
particular it rejects "http://x", "x:80", "x/y", "x@y", a 64-character
label followed by ".com", "" — and also "a.b.co" — and accepts
"example.com", "127.0.0.1" and "sub.domain.co". -/
theorem C5_validation_grammar :
    (∀ s : String, validate_host s = hostSpec s) ∧
    validate_host "example.com" = true ∧ validate_host "127.0.0.1" = true ∧
    validate_host "sub.domain.co" = true ∧
    validate_host "http://x" = false ∧ validate_host "x:80" = false ∧
    validate_host "x/y" = false ∧ validate_host "x@y" = false ∧
    validate_host (String.mk (List.replicate 64 'a') ++ ".com") = false ∧
    validate_host "" = false ∧ validate_host "a.b.co" = false := by
  refine ⟨?_, ?_, ?_, ?_, ?_, ?_, ?_, ?_, ?_, ?_, ?_⟩
  · intro s
    exact validate_host_stripped_eq (pyStrip s).data
  all_goals decide

end HostHunter
